import Mathlib

/-!
Verification of the bullet-journal core (`journal_app`): a shallow embedding
of `entry.py`, `persistence.py` and the pure parts of `app.py`, with theorems
settling the frozen claims about the entry model, the JSON codec, the store
and the view builder.

Modelling conventions:
* Calendar dates are `Int` day numbers (`date.toordinal`); `date.fromisoformat`
  and `date.isoformat` are an exact, order-preserving bijection between
  well-formed `YYYY-MM-DD` strings and ordinals, so a habit's
  `completed_dates` list of date strings is embedded as a `List Int`.
* `datetime` values are `DateTime` records (ordinal day plus time-of-day);
  Python compares datetimes lexicographically by component.
* `date.today()` / `datetime.now()` are injected as explicit parameters
  (`today`, `now`) instead of reading a wall clock.
* Python's stable in-place `list.sort` / `sorted` is embedded as
  `List.insertionSort` (a stable sort) with the corresponding relation.
-/

namespace JournalApp

/-- The `Signifier` enum from `entry.py` (Ryder Carroll bullet-journal signifiers). -/
inductive Signifier
  | priority
  | inspiration
  | explore
  | none
deriving DecidableEq, Repr

/-- The declared short value of each `Signifier` member (`entry.py` lines 8-11). -/
def Signifier.value : Signifier → String
  | .priority => "*"
  | .inspiration => "!"
  | .explore => "?"
  | .none => ""

/-- The `TaskStatus` enum from `entry.py` (bullet-journal task states). -/
inductive TaskStatus
  | incomplete
  | complete
  | migrated
  | scheduled
  | irrelevant
deriving DecidableEq, Repr

/-- The declared short value of each `TaskStatus` member (`entry.py` lines 15-19). -/
def TaskStatus.value : TaskStatus → String
  | .incomplete => "•"
  | .complete => "×"
  | .migrated => ">"
  | .scheduled => "<"
  | .irrelevant => "−"

/-- The member list of the `Signifier` enum, in declaration order. -/
def Signifier.members : List Signifier :=
  [.priority, .inspiration, .explore, .none]

/-- Python `Signifier(v)`: value lookup over the declared members; `Option.none`
models the `ValueError` raised for an undeclared value. -/
def Signifier.fromValue (v : String) : Option Signifier :=
  Signifier.members.find? (fun s => s.value = v)

/-- A `datetime` instant: proleptic-Gregorian ordinal day (`date.toordinal`)
plus time of day within it.  Python compares datetimes lexicographically. -/
structure DateTime where
  day : Int
  tod : Int
deriving DecidableEq, Repr

/-- Python `<=` on `datetime`: lexicographic by (day, time-of-day). -/
def DateTime.Le (a b : DateTime) : Prop :=
  a.day < b.day ∨ (a.day = b.day ∧ a.tod ≤ b.tod)

instance (a b : DateTime) : Decidable (DateTime.Le a b) := by
  unfold DateTime.Le; exact inferInstance

/-- Python `date.weekday()` on an ordinal day: Monday is 0, and ordinal 1
(0001-01-01 in the proleptic Gregorian calendar) is a Monday. -/
def weekday (d : Int) : Int := (d - 1) % 7

/-!  `HabitEntry.get_streak` (`entry.py` lines 98-117).

The method parses `completed_dates`, sorts the dates newest first and walks
the sorted list with a mutable `expected_date` cursor.  `streakLoop` is the
loop body: the three branches are `completed == expected_date`,
`completed < expected_date` (break unless exactly one day earlier), and the
implicit fall-through for `completed > expected_date` (no branch taken, the
loop moves on).  -/
def streakLoop : List Int → Int → Nat → Nat
  | [], _, streak => streak
  | completed :: rest, expected, streak =>
    if completed = expected then
      streakLoop rest (expected - 1) (streak + 1)
    else if completed < expected then
      if completed ≠ expected - 1 then streak
      else streakLoop rest (expected - 1) (streak + 1)
    else
      streakLoop rest expected streak

/-- The method `HabitEntry.get_streak`, with `date.today()` injected as `today` and the
date strings of `completed_dates` embedded as ordinals. -/
def get_streak (today : Int) (completed_dates : List Int) : Nat :=
  if completed_dates = [] then 0
  else streakLoop (completed_dates.insertionSort (· ≥ ·)) today 0

/-- The method `HabitEntry.mark_complete` (`entry.py` lines 76-84), as its effect on the
`completed_dates` field: append if absent, then `sort(reverse=True)`. -/
def mark_complete (completion_date : Int) (completed_dates : List Int) : List Int :=
  if completion_date ∈ completed_dates then completed_dates
  else (completed_dates ++ [completion_date]).insertionSort (· ≥ ·)

/-- The method `HabitEntry.is_completed_today` (`entry.py` lines 86-89). -/
def is_completed_today (today : Int) (completed_dates : List Int) : Bool :=
  today ∈ completed_dates

/-- The `status` field of a Python `TaskEntry` object.  The dataclass declares it
as `TaskStatus`, but nothing enforces that: `_decode_entry` passes the raw
JSON string through, so a reloaded task holds a `str`.  The sum captures both
shapes the running program actually produces. -/
inductive StatusVal
  | enum (s : TaskStatus)
  | raw (s : String)
deriving DecidableEq, Repr

/-- The method `TaskEntry.complete` (`entry.py` lines 48-50), as its effect on the
`status` field: unconditional assignment of `TaskStatus.COMPLETE`. -/
def TaskEntry.complete (_status : StatusVal) : StatusVal :=
  StatusVal.enum TaskStatus.complete

/-- The method `TaskEntry.migrate` (`entry.py` lines 52-54). -/
def TaskEntry.migrate (_status : StatusVal) : StatusVal :=
  StatusVal.enum TaskStatus.migrated

/-- A journal entry object, one constructor per dataclass of `entry.py`.
`base` is a bare `JournalEntry` (its `type` is a required init field); for the
four concrete subclasses `type` is an `init=False` field with a plain default,
hence a class attribute that never appears in the instance `__dict__`. -/
inductive JournalEntry
  | base (content : String) (type : String) (signifier : Signifier)
      (timestamp : DateTime)
  | note (content : String) (signifier : Signifier) (timestamp : DateTime)
  | task (content : String) (signifier : Signifier) (timestamp : DateTime)
      (status : StatusVal)
  | event (content : String) (signifier : Signifier) (timestamp : DateTime)
      (location : Option String) (is_completed : Bool)
  | habit (content : String) (signifier : Signifier) (timestamp : DateTime)
      (frequency : String) (completed_dates : List String)
deriving DecidableEq

/-- The `timestamp` field of an entry. -/
def timestampOf : JournalEntry → DateTime
  | .base _ _ _ t => t
  | .note _ _ t => t
  | .task _ _ t _ => t
  | .event _ _ t _ _ => t
  | .habit _ _ t _ _ => t

/-- A Python/JSON value as it appears in an entry's field dict or in a
serialized record.  `tstr t` stands for the ISO-8601 string of the datetime
`t`: `datetime.isoformat` and `datetime.fromisoformat` are exact inverses, so
a well-formed timestamp string is identified with its parse, while `str`
covers every other string. -/
inductive PyVal
  | str (s : String)
  | tstr (t : DateTime)
  | bool (b : Bool)
  | strList (l : List String)
  | pynone
  | dt (t : DateTime)
  | sig (s : Signifier)
deriving DecidableEq

/-- A JSON object / Python dict: association list in insertion order. -/
abbrev Record := List (String × PyVal)

/-- Dict lookup `data[k]`. -/
def getKey : Record → String → Option PyVal
  | [], _ => Option.none
  | (k', v) :: rest, k => if k' = k then some v else getKey rest k

/-- Membership test `k in data`. -/
def hasKey (r : Record) (k : String) : Bool := (getKey r k).isSome

/-- Removal `data.pop(k)`: the dict with key `k` removed. -/
def eraseKey : Record → String → Record
  | [], _ => []
  | (k', v) :: rest, k =>
    if k' = k then eraseKey rest k else (k', v) :: eraseKey rest k

/-- Assignment `data[k] = v`: update in place, or append a new key at the end. -/
def setKey : Record → String → PyVal → Record
  | [], k, v => [(k, v)]
  | (k', v') :: rest, k, v =>
    if k' = k then (k, v) :: rest else (k', v') :: setKey rest k v

/-- Serialized form of a task's `status` field: an enum member is encoded by
its declared value, a raw string is dumped verbatim. -/
def encodeStatus : StatusVal → String
  | .enum s => s.value
  | .raw s => s

/-- Serialized form of an event's optional `location` (`None` → JSON null). -/
def encodeLocation : Option String → PyVal
  | some s => .str s
  | Option.none => .pynone

/-- The `CustomEncoder` (`persistence.py` lines 166-182) composed with the JSON
dump: `default` copies the instance `__dict__` (fields in `__init__`
assignment order, without the class-attribute `type` for concrete variants)
and adds `"_type"`; the dump then encodes the `datetime` via `isoformat` and
each enum via its `.value`. -/
def encodeEntry : JournalEntry → Record
  | .base c ty g t =>
    [("content", .str c), ("type", .str ty), ("signifier", .str g.value),
     ("timestamp", .tstr t), ("_type", .str "JournalEntry")]
  | .note c g t =>
    [("content", .str c), ("signifier", .str g.value),
     ("timestamp", .tstr t), ("_type", .str "NoteEntry")]
  | .task c g t st =>
    [("content", .str c), ("signifier", .str g.value),
     ("timestamp", .tstr t), ("status", .str (encodeStatus st)),
     ("_type", .str "TaskEntry")]
  | .event c g t loc ic =>
    [("content", .str c), ("signifier", .str g.value),
     ("timestamp", .tstr t), ("location", encodeLocation loc),
     ("is_completed", .bool ic), ("_type", .str "EventEntry")]
  | .habit c g t f cd =>
    [("content", .str c), ("signifier", .str g.value),
     ("timestamp", .tstr t), ("frequency", .str f),
     ("completed_dates", .strList cd), ("_type", .str "HabitEntry")]

/-- The dataclasses named in `_decode_entry`'s `class_map`. -/
inductive EntryClass
  | journalEntry
  | noteEntry
  | taskEntry
  | eventEntry
  | habitEntry
deriving DecidableEq

/-- The `class_map` of `_decode_entry` (`persistence.py` lines 111-117). -/
def classMap (s : String) : Option EntryClass :=
  if s = "TaskEntry" then some .taskEntry
  else if s = "EventEntry" then some .eventEntry
  else if s = "NoteEntry" then some .noteEntry
  else if s = "HabitEntry" then some .habitEntry
  else if s = "JournalEntry" then some .journalEntry
  else Option.none

/-- The `dataclass_fields` names of each class, in declaration order.  This is the
`valid_keys` set of `_decode_entry`; note it includes the `init=False` field
`type`. -/
def classFields : EntryClass → List String
  | .journalEntry => ["content", "type", "signifier", "timestamp"]
  | .noteEntry => ["content", "type", "signifier", "timestamp"]
  | .taskEntry => ["content", "type", "signifier", "timestamp", "status"]
  | .eventEntry =>
    ["content", "type", "signifier", "timestamp", "location", "is_completed"]
  | .habitEntry =>
    ["content", "type", "signifier", "timestamp", "frequency",
     "completed_dates"]

/-- The `__init__` keyword parameters of each class: all fields except `type`
for the concrete variants (`type` is `init=False` there), all four fields for
the base class. -/
def classInitFields : EntryClass → List String
  | .journalEntry => ["content", "type", "signifier", "timestamp"]
  | c => (classFields c).filter (fun k => k ≠ "type")

/-- Timestamp conversion step of `_decode_entry` (lines 123-128): a
well-formed ISO string parses to its datetime; any other string raises
`ValueError`, logged and replaced by `datetime.now()`; a non-string value is
left untouched. -/
def convertTimestamp (now : DateTime) (data : Record) : Record :=
  match getKey data "timestamp" with
  | some (.tstr t) => setKey data "timestamp" (.dt t)
  | some (.str _) => setKey data "timestamp" (.dt now)
  | _ => data

/-- Signifier conversion step of `_decode_entry` (lines 131-135):
`Signifier(v)` for a declared value, `Signifier.NONE` on `ValueError`.  An
ISO datetime string is a `str` to Python but never a declared signifier
value, so the `tstr` case also falls back to `NONE`. -/
def convertSignifier (data : Record) : Record :=
  match getKey data "signifier" with
  | some (.str s) =>
    setKey data "signifier" (.sig ((Signifier.fromValue s).getD Signifier.none))
  | some (.tstr _) => setKey data "signifier" (.sig Signifier.none)
  | _ => data

/-- Instantiation `entry_class(**filtered_data)` for the selected class: `Option.none`
models the `TypeError` raised when a keyword is not an `__init__` parameter
(e.g. the `init=False` field `type`) or a required parameter (`content`; also
`type` for the base class) is missing.  Field values outside the shapes the
program ever stores in that field are not modelled and also map to
`Option.none`; every record produced by `encodeEntry` (with or without a
rewritten signifier string) stays inside the modelled shapes. -/
def construct (c : EntryClass) (now : DateTime) (filtered : Record) :
    Option JournalEntry := do
  let _ ← if (filtered.map Prod.fst).all (fun k => k ∈ classInitFields c)
    then some () else Option.none
  let content ← match getKey filtered "content" with
    | some (.str s) => some s
    | _ => Option.none
  let signifier ← match getKey filtered "signifier" with
    | some (.sig s) => some s
    | Option.none => some Signifier.none
    | _ => Option.none
  let timestamp ← match getKey filtered "timestamp" with
    | some (.dt t) => some t
    | Option.none => some now
    | _ => Option.none
  match c with
  | .journalEntry =>
    match getKey filtered "type" with
    | some (.str ty) => some (.base content ty signifier timestamp)
    | _ => Option.none
  | .noteEntry => some (.note content signifier timestamp)
  | .taskEntry =>
    match getKey filtered "status" with
    | some (.str s) => some (.task content signifier timestamp (.raw s))
    | Option.none =>
      some (.task content signifier timestamp (.enum .incomplete))
    | _ => Option.none
  | .eventEntry => do
    let location ← match getKey filtered "location" with
      | some (.str s) => some (some s)
      | some .pynone => some Option.none
      | Option.none => some Option.none
      | _ => Option.none
    let ic ← match getKey filtered "is_completed" with
      | some (.bool b) => some b
      | Option.none => some false
      | _ => Option.none
    some (.event content signifier timestamp location ic)
  | .habitEntry => do
    let freq ← match getKey filtered "frequency" with
      | some (.str s) => some s
      | Option.none => some "Daily"
      | _ => Option.none
    let cd ← match getKey filtered "completed_dates" with
      | some (.strList l) => some l
      | Option.none => some ([] : List String)
      | _ => Option.none
    some (.habit content signifier timestamp freq cd)

/-- The method `FileJournalRepository._decode_entry` (`persistence.py` lines 107-153):
pop `"_type"`, convert `timestamp` and `signifier` in place, look the tag up
in `class_map`, filter the dict to the class's field names and instantiate;
on a `TypeError`, and on every path that falls through, `return data` — the
(by then mutated) plain dict. -/
def decode_entry (now : DateTime) (data : Record) : JournalEntry ⊕ Record :=
  if hasKey data "_type" then
    let tyVal := getKey data "_type"
    let data3 := convertSignifier (convertTimestamp now (eraseKey data "_type"))
    match tyVal with
    | some (.str tyName) =>
      match classMap tyName with
      | some c =>
        match construct c now
            (data3.filter (fun kv => decide (kv.1 ∈ classFields c))) with
        | some e => .inl e
        | Option.none => .inr data3
      | Option.none => .inr data3
    | _ => .inr data3
  else .inr data

/-- The body of `load_entries` on a successfully parsed top-level list:
`object_hook` runs `_decode_entry` on every JSON object, then the list
comprehension keeps the values that are `JournalEntry` instances. -/
def loadFromData (now : DateTime) (rs : List Record) : List JournalEntry :=
  (rs.map (decode_entry now)).filterMap
    (fun r => match r with | .inl e => some e | .inr _ => Option.none)

/-- The observable states of the snapshot file that `load_entries`
distinguishes: empty content, content `json.loads` rejects, or a parsed
top-level list of records. -/
inductive FileContent
  | empty
  | malformed
  | validList (records : List Record)

/-- The `try` body of `load_entries` (`persistence.py` lines 69-79):
an empty read returns `[]`, a malformed file raises `JSONDecodeError`. -/
def load_attempt (now : DateTime) : FileContent → Except String (List JournalEntry)
  | .empty => .ok []
  | .malformed => .error "JSONDecodeError"
  | .validList rs => .ok (loadFromData now rs)

/-- The method `FileJournalRepository.load_entries` (`persistence.py` lines 63-86):
`Option.none` is a missing file; the `except` handlers turn every raised
error into an empty collection, so the function is total and never propagates
an exception. -/
def load_entries (now : DateTime) : Option FileContent → List JournalEntry
  | Option.none => []
  | some fc =>
    match load_attempt now fc with
    | .ok es => es
    | .error _ => []

/-- The method `FileJournalRepository.find_by_date_range` (`persistence.py` lines
99-105): load everything, keep `start <= e.timestamp <= end`. -/
def find_by_date_range (now : DateTime) (file : Option FileContent)
    (start end_ : DateTime) : List JournalEntry :=
  (load_entries now file).filter
    (fun e =>
      decide (DateTime.Le start (timestampOf e)) &&
      decide (DateTime.Le (timestampOf e) end_))

/-- The descending run of `n` consecutive days `today, today-1, ..., today-(n-1)`. -/
def descRun (t : Int) : Nat → List Int
  | 0 => []
  | n + 1 => t :: descRun (t - 1) n

theorem descRun_eq_nil_iff {t : Int} {n : Nat} : descRun t n = [] ↔ n = 0 := by
  cases n <;> simp [descRun]

theorem mem_descRun_le {t x : Int} : ∀ {n : Nat}, x ∈ descRun t n → x ≤ t := by
  intro n
  induction n generalizing t with
  | zero => simp [descRun]
  | succ n ih =>
    intro hx
    rcases List.mem_cons.mp hx with h | h
    · omega
    · have := ih h
      omega

theorem descRun_sorted (t : Int) (n : Nat) :
    List.Sorted (· ≥ ·) (descRun t n) := by
  induction n generalizing t with
  | zero => simp [descRun, List.Sorted]
  | succ n ih =>
    refine List.Pairwise.cons ?_ (ih (t - 1))
    intro x hx
    have := mem_descRun_le hx
    omega

theorem streakLoop_descRun (n : Nat) : ∀ (t : Int) (s : Nat),
    streakLoop (descRun t n) t s = s + n := by
  induction n with
  | zero => intro t s; simp [descRun, streakLoop]
  | succ n ih =>
    intro t s
    have hstep : streakLoop (t :: descRun (t - 1) n) t s =
        streakLoop (descRun (t - 1) n) (t - 1) (s + 1) := by
      simp [streakLoop]
    rw [descRun, hstep, ih (t - 1) (s + 1)]
    omega

theorem streakLoop_zero_of_not_mem {l : List Int} {t : Int}
    (h₀ : t ∉ l) (h₁ : t - 1 ∉ l) : streakLoop l t 0 = 0 := by
  induction l with
  | nil => simp [streakLoop]
  | cons c rest ih =>
    have hc : c ≠ t := by intro h; exact h₀ (h ▸ List.mem_cons_self c rest)
    have hc' : c ≠ t - 1 := by intro h; exact h₁ (h ▸ List.mem_cons_self c rest)
    have h₀' : t ∉ rest := fun h => h₀ (List.mem_cons_of_mem c h)
    have h₁' : t - 1 ∉ rest := fun h => h₁ (List.mem_cons_of_mem c h)
    by_cases hlt : c < t
    · simp [streakLoop, hc, hlt, hc']
    · simp [streakLoop, hc, hlt, ih h₀' h₁']

/-- C1 as stated is false: a habit completed yesterday only (today absent from
`completed_dates`) has streak 1, not 0 — the `elif completed < expected_date`
branch of `get_streak` starts the streak at yesterday. -/
theorem C1_counterexample : get_streak 100 [99] ≠ 0 := by decide

/-- C1 (amended): if `completed_dates` contains neither `today` nor `today-1`,
`get_streak` returns 0; when `today` is absent but `today-1` is present, the
run ending at `today-1` is still credited (e.g. `{today-1}` alone yields 1). -/
theorem C1_amended_streak_zero_without_today_or_yesterday (today : Int) :
    (∀ l : List Int, today ∉ l → today - 1 ∉ l → get_streak today l = 0) ∧
    get_streak today [today - 1] = 1 := by
  constructor
  · intro l h₀ h₁
    unfold get_streak
    by_cases hl : l = []
    · simp [hl]
    · rw [if_neg hl]
      refine streakLoop_zero_of_not_mem ?_ ?_
      · rw [List.mem_insertionSort]; exact h₀
      · rw [List.mem_insertionSort]; exact h₁
  · have hne : ([today - 1] : List Int) ≠ [] := by simp
    rw [get_streak, if_neg hne]
    simp only [List.insertionSort, List.orderedInsert, streakLoop]
    have h1 : ¬ (today - 1 = today) := by omega
    have h2 : today - 1 < today := by omega
    simp [h1, h2, streakLoop]

/-- Witness for the amended C1 at a concrete input. -/
theorem C1_amended_witness :
    (100 : Int) ∉ ([95, 97] : List Int) ∧ (100 : Int) - 1 ∉ ([95, 97] : List Int) ∧
    get_streak 100 [95, 97] = 0 :=
  ⟨by decide, by decide,
    (C1_amended_streak_zero_without_today_or_yesterday 100).1 [95, 97]
      (by decide) (by decide)⟩

/-- C3: for a habit whose `completed_dates` holds exactly the consecutive run
`today, today-1, ..., today-(n-1)` (in any order), `get_streak` returns `n`;
an empty `completed_dates` gives streak 0. -/
theorem C3_streak_counts_consecutive_run (today : Int) :
    (∀ (n : Nat) (l : List Int), l.Perm (descRun today n) → get_streak today l = n) ∧
    get_streak today [] = 0 := by
  constructor
  · intro n l hperm
    by_cases hl : l = []
    · subst hl
      have : descRun today n = [] := (List.perm_nil.mp hperm.symm)
      have hn : n = 0 := descRun_eq_nil_iff.mp this
      simp [get_streak, hn]
    · rw [get_streak, if_neg hl]
      have hsorted : List.Sorted (· ≥ ·) (l.insertionSort (· ≥ ·)) :=
        List.sorted_insertionSort _ l
      have hperm' : (l.insertionSort (· ≥ ·)).Perm (descRun today n) :=
        (List.perm_insertionSort _ l).trans hperm
      have heq : l.insertionSort (· ≥ ·) = descRun today n :=
        List.eq_of_perm_of_sorted hperm' hsorted (descRun_sorted today n)
      rw [heq, streakLoop_descRun]
      omega
  · simp [get_streak]

/-- Witness for C3 at a concrete input: `{today, today-1, today-2}` (listed
out of order) with `today = 100` gives streak 3. -/
theorem C3_witness :
    ([99, 100, 98] : List Int).Perm (descRun 100 3) ∧ get_streak 100 [99, 100, 98] = 3 :=
  ⟨by decide, (C3_streak_counts_consecutive_run 100).1 3 [99, 100, 98] (by decide)⟩

/-- C6: `TaskEntry.complete` is idempotent, `HabitEntry.mark_complete` is
idempotent for a fixed date, and `mark_complete` preserves the
each-date-at-most-once invariant of `completed_dates`. -/
theorem C6_complete_and_mark_idempotent (s : StatusVal) (d : Int) (l : List Int) :
    TaskEntry.complete (TaskEntry.complete s) = TaskEntry.complete s ∧
    mark_complete d (mark_complete d l) = mark_complete d l ∧
    (l.Nodup → (mark_complete d l).Nodup) := by
  refine ⟨rfl, ?_, ?_⟩
  · have hmem : d ∈ mark_complete d l := by
      unfold mark_complete
      by_cases h : d ∈ l
      · simp [h]
      · rw [if_neg h, List.mem_insertionSort]
        simp
    rw [mark_complete, if_pos hmem]
  · intro hnd
    unfold mark_complete
    by_cases h : d ∈ l
    · simpa [h] using hnd
    · rw [if_neg h]
      rw [(List.perm_insertionSort (· ≥ ·) (l ++ [d])).nodup_iff]
      simp [List.nodup_append, hnd, h]

/-- What `_decode_entry` actually rebuilds from an encoded entry: every field
survives except a task's `status`, which stays the raw glyph string because
the decoder converts only `signifier` and `timestamp` back to their types. -/
def reloadOf : JournalEntry → JournalEntry
  | .task c g t st => .task c g t (.raw (encodeStatus st))
  | e => e

/-- An entry with its `signifier` field replaced. -/
def withSignifier (g : Signifier) : JournalEntry → JournalEntry
  | .base c ty _ t => .base c ty g t
  | .note c _ t => .note c g t
  | .task c _ t st => .task c g t st
  | .event c _ t loc ic => .event c g t loc ic
  | .habit c _ t f cd => .habit c g t f cd

/-- C2 fails on the code: `_decode_entry` converts `signifier` and
`timestamp` back to their types but never `status`, so a saved task reloads
with the raw glyph string `"•"` where `TaskStatus.INCOMPLETE` was saved, and
`decode (encode x)` is not field-for-field equal to `x` for any collection
containing a task (the note, event and habit variants do round-trip). -/
theorem C2_task_status_not_reconstructed :
    loadFromData ⟨739100, 0⟩
        [encodeEntry (.note "welcome" .inspiration ⟨739000, 510⟩),
         encodeEntry (.task "Buy milk" .priority ⟨739000, 540⟩ (.enum .incomplete)),
         encodeEntry (.event "party" .none ⟨739001, 600⟩ (some "home") false),
         encodeEntry (.habit "run" .none ⟨739002, 0⟩ "Daily" ["2024-01-01"])] =
      [.note "welcome" .inspiration ⟨739000, 510⟩,
       .task "Buy milk" .priority ⟨739000, 540⟩ (.raw "•"),
       .event "party" .none ⟨739001, 600⟩ (some "home") false,
       .habit "run" .none ⟨739002, 0⟩ "Daily" ["2024-01-01"]] ∧
    JournalEntry.task "Buy milk" .priority ⟨739000, 540⟩ (.raw "•") ≠
      JournalEntry.task "Buy milk" .priority ⟨739000, 540⟩ (.enum .incomplete) := by
  decide

/-- C4: `load_entries` returns an empty collection when the snapshot file is
missing, empty, or not structurally valid JSON; the `except` handlers make it
total in the model, so no exception reaches the caller. -/
theorem C4_load_degrades_to_empty (now : DateTime) :
    load_entries now Option.none = [] ∧
    load_entries now (some FileContent.empty) = [] ∧
    load_entries now (some FileContent.malformed) = [] :=
  ⟨rfl, rfl, rfl⟩

/-- C5: a persisted record whose signifier string is not a declared
`Signifier` value decodes with `Signifier.NONE` substituted, the record
itself still loads, and the records around it load exactly as they would
without it; `load_entries` is total, so no exception escapes. -/
theorem C5_bad_signifier_falls_back_to_none (now : DateTime) (e : JournalEntry)
    (s : String) (rs1 rs2 : List Record)
    (h : Signifier.fromValue s = Option.none) :
    loadFromData now (rs1 ++ setKey (encodeEntry e) "signifier" (.str s) :: rs2) =
      loadFromData now rs1 ++
        withSignifier Signifier.none (reloadOf e) :: loadFromData now rs2 := by
  have hdec : decode_entry now (setKey (encodeEntry e) "signifier" (.str s)) =
      .inl (withSignifier Signifier.none (reloadOf e)) := by
    cases e with
    | event c g t loc ic =>
      cases loc <;>
        simp [encodeEntry, setKey, decode_entry, hasKey, getKey, eraseKey,
          convertTimestamp, convertSignifier, classMap, construct, classFields,
          classInitFields, h, reloadOf, withSignifier, encodeStatus,
          encodeLocation]
    | _ =>
      simp [encodeEntry, setKey, decode_entry, hasKey, getKey, eraseKey,
        convertTimestamp, convertSignifier, classMap, construct, classFields,
        classInitFields, h, reloadOf, withSignifier, encodeStatus,
        encodeLocation]
  simp [loadFromData, hdec]

/-- Witness for C5 at a concrete input: one well-formed record plus one
record carrying the undeclared signifier value `"#"`. -/
theorem C5_witness :
    Signifier.fromValue "#" = Option.none ∧
    loadFromData ⟨739100, 0⟩
        ([encodeEntry (.note "good" .priority ⟨739000, 0⟩)] ++
          setKey (encodeEntry (.note "bad sig" .explore ⟨739001, 0⟩))
            "signifier" (.str "#") :: []) =
      loadFromData ⟨739100, 0⟩ [encodeEntry (.note "good" .priority ⟨739000, 0⟩)] ++
        withSignifier Signifier.none (reloadOf (.note "bad sig" .explore ⟨739001, 0⟩)) ::
          loadFromData ⟨739100, 0⟩ [] :=
  ⟨by decide,
    C5_bad_signifier_falls_back_to_none ⟨739100, 0⟩
      (.note "bad sig" .explore ⟨739001, 0⟩) "#"
      [encodeEntry (.note "good" .priority ⟨739000, 0⟩)] [] (by decide)⟩

/-- C9: `find_by_date_range` returns exactly the entries of the loaded
collection whose timestamp lies in the inclusive range `[start, end]`. -/
theorem C9_find_by_date_range_inclusive (now : DateTime)
    (file : Option FileContent) (start end_ : DateTime) (e : JournalEntry) :
    e ∈ find_by_date_range now file start end_ ↔
      e ∈ load_entries now file ∧
        DateTime.Le start (timestampOf e) ∧ DateTime.Le (timestampOf e) end_ := by
  simp [find_by_date_range, List.mem_filter, and_assoc]

/-- Witness for C6 at a concrete input. -/
theorem C6_witness :
    ([7, 3] : List Int).Nodup ∧ (mark_complete 5 [7, 3]).Nodup :=
  ⟨by decide,
    (C6_complete_and_mark_idempotent (StatusVal.enum TaskStatus.incomplete) 5 [7, 3]).2.2
      (by decide)⟩

/-- The Python class of an entry object. -/
def classOf : JournalEntry → EntryClass
  | .base .. => .journalEntry
  | .note .. => .noteEntry
  | .task .. => .taskEntry
  | .event .. => .eventEntry
  | .habit .. => .habitEntry

/-- Python `isinstance(entry, required_type)` for the classes the app passes: true
when the object's class is the required one (or the required class is the
common base `JournalEntry`). -/
def isinstanceB (e : JournalEntry) (c : EntryClass) : Bool :=
  decide (classOf e = c ∨ c = EntryClass.journalEntry)

/-- Placeholder used with `List.getD`; every access is guarded by the index
check, so it is never read. -/
def defaultEntry : JournalEntry := .note "" Signifier.none ⟨0, 0⟩

/-- The method `BulletJournalCLI._get_entry_by_index` (`app.py` lines 196-218), with the
raw input embedded as `Option Int` (`Option.none` is the `ValueError` of
`int(...)`).  The Python returns the entry object itself (an alias into the
list); the state-passing embedding returns its index, `Option.none` when the
operation is rejected. -/
def get_entry_by_index (entries : List JournalEntry) (index_input : Option Int)
    (required : EntryClass) : Option Nat :=
  match index_input with
  | Option.none => Option.none
  | some n =>
    if 0 ≤ n - 1 ∧ n - 1 < (entries.length : Int) then
      if isinstanceB (entries.getD (n - 1).toNat defaultEntry) required then
        some (n - 1).toNat
      else Option.none
    else Option.none

/-- The call `entry.complete()` as made on the selected object: only ever reached
when the entry is a `TaskEntry`. -/
def completeCall : JournalEntry → JournalEntry
  | .task c g t st => .task c g t (TaskEntry.complete st)
  | e => e

/-- The method `BulletJournalCLI.complete_task` (`app.py` lines 221-226) as a state
transformer on the entry list: resolve the selection, and if it succeeded
mutate the selected entry in place. -/
def complete_task (entries : List JournalEntry) (index_input : Option Int) :
    List JournalEntry :=
  match get_entry_by_index entries index_input .taskEntry with
  | Option.none => entries
  | some i => entries.set i (completeCall (entries.getD i defaultEntry))

/-- C7: when the selection input is not a number, resolves out of range, or
resolves to an entry that is not a `TaskEntry`, `complete_task` is rejected
and the entry list — the selected entry and every other entry — is returned
unchanged. -/
theorem C7_rejected_completion_mutates_nothing (entries : List JournalEntry)
    (n : Int)
    (h : n - 1 < 0 ∨ (entries.length : Int) ≤ n - 1 ∨
      classOf (entries.getD (n - 1).toNat defaultEntry) ≠ .taskEntry) :
    complete_task entries (some n) = entries ∧
    complete_task entries Option.none = entries := by
  have hget : get_entry_by_index entries (some n) .taskEntry = Option.none := by
    show (if 0 ≤ n - 1 ∧ n - 1 < (entries.length : Int) then
        if isinstanceB (entries.getD (n - 1).toNat defaultEntry)
            EntryClass.taskEntry = true then
          some (n - 1).toNat
        else Option.none
      else Option.none) = Option.none
    rcases h with h | h | h
    · rw [if_neg (by omega)]
    · rw [if_neg (by omega)]
    · by_cases hg : 0 ≤ n - 1 ∧ n - 1 < (entries.length : Int)
      · rw [if_pos hg, if_neg]
        simp only [isinstanceB, decide_eq_true_eq]
        rintro (hc | hc)
        · exact h hc
        · exact EntryClass.noConfusion hc
      · rw [if_neg hg]
  exact ⟨by simp [complete_task, hget], rfl⟩

/-- Witness for C7 at a concrete input: index 1 selects a Note, so completing
it as a task is rejected without mutation. -/
theorem C7_witness :
    classOf (([JournalEntry.note "a" Signifier.none ⟨1, 2⟩].getD
        ((1 : Int) - 1).toNat defaultEntry)) ≠ EntryClass.taskEntry ∧
    complete_task [JournalEntry.note "a" Signifier.none ⟨1, 2⟩] (some 1) =
      [JournalEntry.note "a" Signifier.none ⟨1, 2⟩] :=
  ⟨by decide,
    (C7_rejected_completion_mutates_nothing
      [JournalEntry.note "a" Signifier.none ⟨1, 2⟩] 1
      (Or.inr (Or.inr (by decide)))).1⟩

/-- Comparison of entries by timestamp, the sort key of
`sorted(self.entries, key=lambda e: e.timestamp)`. -/
def tsLe (a b : JournalEntry) : Prop :=
  DateTime.Le (timestampOf a) (timestampOf b)

instance (a b : JournalEntry) : Decidable (tsLe a b) := by
  unfold tsLe; exact inferInstance

instance : IsTotal JournalEntry tsLe :=
  ⟨by intro a b; unfold tsLe DateTime.Le; omega⟩

instance : IsTrans JournalEntry tsLe :=
  ⟨by intro a b c; unfold tsLe DateTime.Le; omega⟩

/-- The entry selection of `BulletJournalCLI.display_weekly_view` (`app.py`
lines 299-332): compute the Monday start of the week containing today, sort a
copy of the entries ascending by timestamp, and keep the ones whose timestamp
date lies between Monday and Monday+6 inclusive. -/
def display_weekly_view (entries : List JournalEntry) (today : Int) :
    List JournalEntry :=
  (entries.insertionSort tsLe).filter
    (fun e => decide (today - weekday today ≤ (timestampOf e).day ∧
      (timestampOf e).day ≤ today - weekday today + 6))

/-- C8: the weekly view's window starts on a Monday and contains the
reference day; the view holds exactly the entries dated inside the window
(both endpoints included, the following Monday excluded), in ascending
timestamp order. -/
theorem C8_weekly_view_window (entries : List JournalEntry) (today : Int) :
    weekday (today - weekday today) = 0 ∧
    today - weekday today ≤ today ∧ today ≤ today - weekday today + 6 ∧
    (∀ e, e ∈ display_weekly_view entries today ↔
      e ∈ entries ∧ today - weekday today ≤ (timestampOf e).day ∧
        (timestampOf e).day ≤ today - weekday today + 6) ∧
    List.Sorted tsLe (display_weekly_view entries today) := by
  refine ⟨?_, ?_, ?_, ?_, ?_⟩
  · unfold weekday; omega
  · unfold weekday; omega
  · unfold weekday; omega
  · intro e
    simp [display_weekly_view, List.mem_filter, List.mem_insertionSort,
      and_assoc]
  · exact List.Pairwise.sublist (List.filter_sublist _)
      (List.sorted_insertionSort tsLe entries)

/-!  `save_entries` frame property (C10).

To express that serialization never mutates the entries, the encoder is
modelled over an explicit heap of mutable dicts: addresses are indices into a
cell list, each cell an entry's `__dict__`.  `CustomEncoder.default` reads
the object's dict, makes a fresh copy (`o.__dict__.copy()` allocates a new
dict), sets `"_type"` on that copy only, and hands the copy to the dump. -/

/-- Read the dict at address `a`. -/
def heapGet (h : List Record) (a : Nat) : Record := h.getD a []

/-- The method `CustomEncoder.default` (`persistence.py` lines 166-182) on the heap:
returns the updated heap and the address of the fresh, tagged copy. -/
def encoder_default (h : List Record) (a : Nat) (tname : String) :
    List Record × Nat :=
  let h1 := h ++ [heapGet h a]
  let b := h.length
  ((h1.set b (setKey (heapGet h1 b) "_type" (.str tname))), b)

/-- The serialization pass of `save_entries` (`persistence.py` lines 88-97):
`json.dump` calls `default` once per entry, in list order, and collects the
record each call returns. -/
def save_entries_encode (h : List Record) :
    List (Nat × String) → List Record × List Nat
  | [] => (h, [])
  | (a, tname) :: rest =>
    let step := encoder_default h a tname
    let tail := save_entries_encode step.1 rest
    (tail.1, step.2 :: tail.2)

theorem encoder_default_preserves (h : List Record) (a' : Nat) (tname : String)
    {a : Nat} (ha : a < h.length) :
    heapGet (encoder_default h a' tname).1 a = heapGet h a ∧
    h.length < (encoder_default h a' tname).1.length := by
  unfold encoder_default heapGet
  refine ⟨?_, by simp⟩
  rw [List.getD_eq_getElem?_getD, List.getD_eq_getElem?_getD,
    List.getElem?_set_ne (by omega), List.getElem?_append_left (by simpa),
    List.getD_eq_getElem?_getD]

/-- C10: serializing is read-only for the in-memory entries — after
`save_entries` every previously allocated dict (in particular every entry's
field dict) is unchanged, and one output record is produced per entry, in
order; the encoder only ever writes to the fresh copies it allocates. -/
theorem C10_save_preserves_entries (objs : List (Nat × String))
    (h : List Record) (a : Nat) (ha : a < h.length) :
    heapGet (save_entries_encode h objs).1 a = heapGet h a ∧
    (save_entries_encode h objs).2.length = objs.length := by
  induction objs generalizing h with
  | nil => exact ⟨rfl, rfl⟩
  | cons o rest ih =>
    obtain ⟨hpres, hlen⟩ := encoder_default_preserves h o.1 o.2 ha
    obtain ⟨ih1, ih2⟩ := ih (encoder_default h o.1 o.2).1 (by omega)
    exact ⟨by simpa [save_entries_encode, ih1], by simp [save_entries_encode, ih2]⟩

/-- Witness for C10 at a concrete input: one entry dict on the heap,
serialized once; the dict is unchanged afterwards. -/
theorem C10_witness :
    0 < ([[("content", PyVal.str "hi")]] : List Record).length ∧
    heapGet (save_entries_encode [[("content", PyVal.str "hi")]]
      [(0, "NoteEntry")]).1 0 = heapGet [[("content", PyVal.str "hi")]] 0 :=
  ⟨by decide,
    (C10_save_preserves_entries [(0, "NoteEntry")]
      [[("content", PyVal.str "hi")]] 0 (by decide)).1⟩

end JournalApp
